import Mathlib

/-!
Shallow embedding of `click/testing.py` (the `CliRunner` in-process test
harness) and proofs about it.

Conventions of the embedding:
* Bytes are `Nat` values `< 256`; byte strings are `List Nat`.
* Decoded text is a `List Nat` of Unicode code points (for the byte-level
  codec layer) or a Lean `String` (for the purely textual prompt layer).
* The configured character set is modelled as UTF-8, the runner's default.
* Fallible Python operations return `Except PyError _`.
* `SystemExit` payloads are modelled by `PyExitCode`: the code only observes
  a payload through `is None`, `isinstance(_, int)`, `!= 0` and `str(_)`,
  so a non-`int`, non-`None` payload is abstracted to its `str` rendering
  together with the result of its `== 0` comparison.
-/

namespace ClickTesting

/-- Python exception values that the embedded fragment can produce. -/
inductive PyError where
  | typeError (msg : String)
  | valueError (msg : String)
  | unicodeDecodeError
  deriving DecidableEq, Repr

/-! ## UTF-8 codec (model of Python's `bytes.decode` / `str.encode`) -/

/-- Is `b` a UTF-8 continuation byte (`0x80..0xBF`)? -/
def utf8cont (b : Nat) : Bool :=
  decide (0x80 ≤ b) && decide (b ≤ 0xBF)

/-- Valid range for the second byte of a multi-byte sequence with lead
byte `b1` (rules out overlong encodings, surrogates and values above
`U+10FFFF`, as Python's UTF-8 codec does). -/
def utf8b2ok (b1 b2 : Nat) : Bool :=
  if b1 = 0xE0 then decide (0xA0 ≤ b2) && decide (b2 ≤ 0xBF)
  else if b1 = 0xED then decide (0x80 ≤ b2) && decide (b2 ≤ 0x9F)
  else if b1 = 0xF0 then decide (0x90 ≤ b2) && decide (b2 ≤ 0xBF)
  else if b1 = 0xF4 then decide (0x80 ≤ b2) && decide (b2 ≤ 0x8F)
  else utf8cont b2

/-- Decode a UTF-8 byte string into a list of units: `some c` is a decoded
code point, `none` is one ill-formed unit (which a strict decoder rejects
and a replacing decoder turns into U+FFFD). -/
def utf8DecodeUnits : List Nat → List (Option Nat)
  | [] => []
  | b1 :: rest =>
    if b1 < 0x80 then some b1 :: utf8DecodeUnits rest
    else if 0xC2 ≤ b1 ∧ b1 ≤ 0xDF then
      match rest with
      | [] => [none]
      | b2 :: r2 =>
        if utf8cont b2 then
          some ((b1 - 0xC0) * 0x40 + (b2 - 0x80)) :: utf8DecodeUnits r2
        else none :: utf8DecodeUnits (b2 :: r2)
    else if 0xE0 ≤ b1 ∧ b1 ≤ 0xEF then
      match rest with
      | [] => [none]
      | b2 :: r2 =>
        if utf8b2ok b1 b2 then
          match r2 with
          | [] => [none]
          | b3 :: r3 =>
            if utf8cont b3 then
              some (((b1 - 0xE0) * 0x40 + (b2 - 0x80)) * 0x40 + (b3 - 0x80)) ::
                utf8DecodeUnits r3
            else none :: utf8DecodeUnits (b3 :: r3)
        else none :: utf8DecodeUnits (b2 :: r2)
    else if 0xF0 ≤ b1 ∧ b1 ≤ 0xF4 then
      match rest with
      | [] => [none]
      | b2 :: r2 =>
        if utf8b2ok b1 b2 then
          match r2 with
          | [] => [none]
          | b3 :: r3 =>
            if utf8cont b3 then
              match r3 with
              | [] => [none]
              | b4 :: r4 =>
                if utf8cont b4 then
                  some ((((b1 - 0xF0) * 0x40 + (b2 - 0x80)) * 0x40 + (b3 - 0x80)) * 0x40 +
                      (b4 - 0x80)) :: utf8DecodeUnits r4
                else none :: utf8DecodeUnits (b4 :: r4)
            else none :: utf8DecodeUnits (b3 :: r3)
        else none :: utf8DecodeUnits (b2 :: r2)
    else none :: utf8DecodeUnits rest

/-- Error policy of Python's `bytes.decode`: `strict` raises on the first
ill-formed unit, `replace` substitutes U+FFFD for each ill-formed unit. -/
inductive CodecPolicy where
  | strict
  | replace
  deriving DecidableEq, Repr

/-- `bytes.decode("utf-8", policy)`: result is a list of code points. -/
def decodeBytes (p : CodecPolicy) (bs : List Nat) : Except PyError (List Nat) :=
  let units := utf8DecodeUnits bs
  match p with
  | .strict =>
    if units.all Option.isSome then .ok (units.map (fun o => o.getD 0))
    else .error .unicodeDecodeError
  | .replace => .ok (units.map (fun o => o.getD 0xFFFD))

/-- UTF-8 encoding of a single code point. -/
def utf8EncodeChar (c : Nat) : List Nat :=
  if c < 0x80 then [c]
  else if c < 0x800 then [0xC0 + c / 0x40, 0x80 + c % 0x40]
  else if c < 0x10000 then
    [0xE0 + c / 0x1000, 0x80 + (c / 0x40) % 0x40, 0x80 + c % 0x40]
  else
    [0xF0 + c / 0x40000, 0x80 + (c / 0x1000) % 0x40, 0x80 + (c / 0x40) % 0x40,
      0x80 + c % 0x40]

/-- `str.encode("utf-8")` on a Lean `String`. -/
def strBytes (s : String) : List Nat :=
  (s.toList.map Char.toNat).flatMap utf8EncodeChar

/-- Python's `text.replace("\r\n", "\n")` on code points: left-to-right,
non-overlapping replacement of CR LF by LF. -/
def crlfToLf : List Nat → List Nat
  | [] => []
  | 13 :: 10 :: rest => 10 :: crlfToLf rest
  | c :: rest => c :: crlfToLf rest

/-! ## In-memory byte streams (`io.BytesIO`) -/

/-- An in-memory seekable byte stream (`io.BytesIO`): contents plus a read
position. -/
structure ByteBuf where
  data : List Nat
  pos : Nat
  deriving DecidableEq, Repr

/-- `BytesIO.read(n)`: `n = none` models `read(-1)` (read to EOF),
`n = some k` reads at most `k` bytes. -/
def ByteBuf.read (b : ByteBuf) (n : Option Nat) : List Nat × ByteBuf :=
  let rest := b.data.drop b.pos
  let rv := match n with
    | none => rest
    | some k => rest.take k
  (rv, { b with pos := b.pos + rv.length })

/-- The longest prefix of `bs` up to and including the first LF (byte 10),
or all of `bs` if it contains no LF. -/
def takeLine : List Nat → List Nat
  | [] => []
  | c :: cs => if c = 10 then [10] else c :: takeLine cs

/-- `BytesIO.readline(n)`: one line (terminated by LF or EOF), truncated to
at most `k` bytes when `n = some k`. -/
def ByteBuf.readline (b : ByteBuf) (n : Option Nat) : List Nat × ByteBuf :=
  let line0 := takeLine (b.data.drop b.pos)
  let rv := match n with
    | none => line0
    | some k => line0.take k
  (rv, { b with pos := b.pos + rv.length })

/-- Split a byte string into LF-terminated lines (the last line may be
unterminated), as `BytesIO.readlines` does. -/
def splitLines : List Nat → List (List Nat)
  | [] => []
  | c :: cs =>
    if c = 10 then [10] :: splitLines cs
    else
      match splitLines cs with
      | [] => [[c]]
      | l :: ls => (c :: l) :: ls

/-- `BytesIO.readlines()`: all remaining lines; the position moves to EOF. -/
def ByteBuf.readlines (b : ByteBuf) : List (List Nat) × ByteBuf :=
  (splitLines (b.data.drop b.pos), { b with pos := b.data.length })

/-! ## `EchoingStdin` -/

/-- `EchoingStdin`: wraps an input stream and an output sink; every read
is mirrored to the sink (`_echo`) before being returned. -/
structure EchoingStdin where
  _input : ByteBuf
  _output : List Nat
  deriving DecidableEq, Repr

/-- `EchoingStdin.read(n)`. -/
def EchoingStdin.read (s : EchoingStdin) (n : Option Nat) : List Nat × EchoingStdin :=
  let (rv, inp) := s._input.read n
  (rv, ⟨inp, s._output ++ rv⟩)

/-- `EchoingStdin.readline(n)`. -/
def EchoingStdin.readline (s : EchoingStdin) (n : Option Nat) : List Nat × EchoingStdin :=
  let (rv, inp) := s._input.readline n
  (rv, ⟨inp, s._output ++ rv⟩)

/-- `EchoingStdin.readlines()`: each returned line is echoed, so the sink
receives their concatenation. -/
def EchoingStdin.readlines (s : EchoingStdin) : List (List Nat) × EchoingStdin :=
  let (ls, inp) := s._input.readlines
  (ls, ⟨inp, s._output ++ ls.flatten⟩)

/-- One read operation against an `EchoingStdin`; `iterNext` is one step of
`__iter__`, which yields (and echoes) the next line. -/
inductive ReadOp where
  | readN (n : Option Nat)
  | readlineN (n : Option Nat)
  | readAllLines
  | iterNext
  deriving DecidableEq, Repr

/-- Perform one read operation; the first component is the byte sequence
delivered to the caller (for `readAllLines`, the concatenation of the
returned lines). -/
def echoStep (s : EchoingStdin) : ReadOp → List Nat × EchoingStdin
  | .readN n => s.read n
  | .readlineN n => s.readline n
  | .readAllLines =>
    let (ls, s1) := s.readlines
    (ls.flatten, s1)
  | .iterNext => s.readline none

/-- Run a sequence of read operations, collecting all bytes delivered to
the caller in order. -/
def echoRun (s : EchoingStdin) : List ReadOp → List Nat × EchoingStdin
  | [] => ([], s)
  | op :: ops =>
    let (rv, s1) := echoStep s op
    let (rvs, s2) := echoRun s1 ops
    (rv ++ rvs, s2)

/-! ## `make_input_stream` -/

/-- The shapes of the `input` argument of `make_input_stream`.  A value
with a `read` attribute is a stream; `_find_binary_reader` (defined in
`click/_compat.py`) either derives a binary-mode reader from it or not.
Modelled from the spec: `_find_binary_reader` is not part of the embedded
sources, so a stream payload directly carries the optional binary reader
that `_find_binary_reader` would return. -/
inductive InputPayload where
  | streamInput (binaryReader : Option ByteBuf)
  | noneInput
  | textInput (s : String)
  | bytesInput (bs : List Nat)
  deriving DecidableEq, Repr

/-- `make_input_stream(input, charset)` with `charset = "utf-8"`. -/
def make_input_stream : InputPayload → Except PyError ByteBuf
  | .streamInput r =>
    match r with
    | some rv => .ok rv
    | none => .error (.typeError "Could not find binary reader for input stream.")
  | .noneInput => .ok ⟨[], 0⟩
  | .textInput s => .ok ⟨strBytes s, 0⟩
  | .bytesInput bs => .ok ⟨bs, 0⟩

/-! ## `SystemExit` payloads and entry-point outcomes -/

/-- A `SystemExit` payload, as observed by `CliRunner.invoke`: `noneCode`
is `None`, `intCode n` is an `int` (Python `bool`s are `int`s), and
`otherCode s z` is any other value, abstracted to its `str` rendering `s`
and the result `z` of its `== 0` comparison (e.g. `0.0` has `z = true`). -/
inductive PyExitCode where
  | noneCode
  | intCode (n : Int)
  | otherCode (str : String) (eqZero : Bool)
  deriving DecidableEq, Repr

/-- Python's `exit_code != 0` on a `SystemExit` payload. -/
def pyExitNeZero : PyExitCode → Bool
  | .noneCode => true
  | .intCode n => decide (n ≠ 0)
  | .otherCode _ z => !z

/-- An exception captured in a `Result`: either the `SystemExit` signal
(with its payload) or some other exception, identified by a tag. -/
inductive PyExc where
  | sysExit (c : PyExitCode)
  | otherExc (tag : String)
  deriving DecidableEq, Repr

/-- Termination behaviour of one call to `cli.main(...)`: a normal return,
a `SystemExit` with a payload, or any other exception. -/
inductive CliOutcome (α : Type) where
  | ret (v : α)
  | sysExit (c : PyExitCode)
  | raiseErr (tag : String)
  deriving DecidableEq, Repr

/-! ## `Result` -/

/-- `Result`: the captured outcome of one invocation.  `stderr_bytes` is
`none` when stderr was merged into stdout (`mix_stderr=True`). -/
structure Result (α : Type) where
  stdout_bytes : List Nat
  stderr_bytes : Option (List Nat)
  return_value : Option α
  exit_code : Int
  exception : Option PyExc
  exc_info : Option PyExc
  deriving DecidableEq, Repr

/-- `Result.stdout`: decode the stdout bytes with the configured charset
and `errors="replace"`, then normalize CRLF to LF. -/
def Result.stdout (r : Result α) : Except PyError (List Nat) :=
  (decodeBytes .replace r.stdout_bytes).map crlfToLf

/-- `Result.output` is an alias for `Result.stdout`. -/
def Result.output (r : Result α) : Except PyError (List Nat) :=
  r.stdout

/-- `Result.stderr`: raises `ValueError` when stderr was not separately
captured, otherwise decodes like `stdout`. -/
def Result.stderr (r : Result α) : Except PyError (List Nat) :=
  match r.stderr_bytes with
  | none => .error (.valueError "stderr not separately captured")
  | some bs => (decodeBytes .replace bs).map crlfToLf

/-! ## `CliRunner.invoke` -/

/-- The part of `CliRunner.invoke` that classifies the entry point's
termination: returns the `return_value`, final `exit_code`, captured
`exception`, `exc_info`, and the text written to stdout by the handler
itself (the `str(exit_code) + "\n"` of a non-integer `SystemExit`
payload); `none` means the exception propagated to the caller
(`catch_exceptions=False` and a non-`SystemExit` exception). -/
def classifyOutcome (outcome : CliOutcome α) (catch_exceptions : Bool) :
    Option (Option α × Int × Option PyExc × Option PyExc × String) :=
  match outcome with
  | .ret v => some (some v, 0, none, none, "")
  | .sysExit c =>
    let ec := match c with
      | .noneCode => PyExitCode.intCode 0
      | x => x
    let exc : Option PyExc := if pyExitNeZero ec then some (.sysExit c) else none
    match ec with
    | .intCode n => some (none, n, exc, some (.sysExit c), "")
    | .otherCode s _ => some (none, 1, exc, some (.sysExit c), s ++ "\n")
    | .noneCode => some (none, 0, exc, some (.sysExit c), "")
  | .raiseErr tag =>
    if catch_exceptions then some (none, 1, some (.otherExc tag), some (.otherExc tag), "")
    else none

/-- `CliRunner.invoke`: classify the termination and build the `Result`.
`outBuf` and `errBuf` are the bytes the entry point wrote to the captured
stdout and stderr buffers before terminating; the handler's own write (for
a non-integer exit payload) is encoded and appended to stdout.  With
`mix_stderr` the stderr bytes are reported as "not separately captured". -/
def invoke (outcome : CliOutcome α) (catch_exceptions : Bool) (mix_stderr : Bool)
    (outBuf errBuf : List Nat) : Option (Result α) :=
  (classifyOutcome outcome catch_exceptions).map fun c =>
    { stdout_bytes := outBuf ++ strBytes c.2.2.2.2
      stderr_bytes := if mix_stderr then none else some errBuf
      return_value := c.1
      exit_code := c.2.1
      exception := c.2.2.1
      exc_info := c.2.2.2.1 }

/-! ## Environment overrides in `CliRunner.isolation` -/

/-- The ambient process environment (`os.environ`), as a partial map. -/
def Env : Type := String → Option String

/-- Setting (`os.environ[k] = v`) or deleting (`del os.environ[k]`,
exceptions for a missing key swallowed) one variable. -/
def envUpdate (e : Env) (k : String) (v : Option String) : Env :=
  fun j => if j = k then v else e j

/-- The override loop of `isolation`: for each `(key, value)` in the
override mapping, snapshot `os.environ.get(key)` into `old_env` and then
set or delete the variable.  Returns the environment after all overrides
and the `old_env` snapshot list (in iteration order). -/
def isolationApplyEnv (e : Env) : List (String × Option String) →
    Env × List (String × Option String)
  | [] => (e, [])
  | (k, v) :: rest =>
    let saved := (k, e k)
    let step := isolationApplyEnv (envUpdate e k v) rest
    (step.1, saved :: step.2)

/-- The `finally` block's restore loop: for each `(key, value)` in
`old_env`, set the variable back (or delete it if it did not exist). -/
def isolationRestoreEnv (old : List (String × Option String)) (e : Env) : Env :=
  old.foldl (fun acc kv => envUpdate acc kv.1 kv.2) e

/-- The whole isolation scope as far as the environment is concerned: apply
the overrides, run the body (which completes normally with `Except.ok` or
raises `Except.error`), then — in `finally`, hence on every exit path —
restore from the snapshot.  Returns the body's outcome unchanged and the
final ambient environment. -/
def isolationSession (e : Env) (overrides : List (String × Option String))
    (body : Except PyError α) : Except PyError α × Env :=
  let step := isolationApplyEnv e overrides
  (body, isolationRestoreEnv step.2 step.1)

/-! ## The `visible_input` hook -/

/-- The textual stdio state seen by the prompt hooks: remaining simulated
stdin text and the text written to simulated stdout so far. -/
structure PromptState where
  inputText : List Char
  outputText : List Char
  deriving DecidableEq, Repr

/-- One `readline()` on the text input: the first line (including its
terminating LF, if present) and the remaining text. -/
def textReadline : List Char → List Char × List Char
  | [] => ([], [])
  | c :: cs =>
    if c = '\n' then ([c], cs)
    else
      let step := textReadline cs
      (c :: step.1, step.2)

/-- Python's `val.rstrip("\r\n")`: drop trailing CR and LF characters. -/
def rstripCRLF (s : List Char) : List Char :=
  (s.reverse.dropWhile (fun c => c = '\r' || c = '\n')).reverse

/-- The `visible_input` hook installed by `isolation`: write `prompt or ""`
to stdout, read one line from stdin, strip trailing CR/LF, echo the
stripped value plus a newline to stdout, flush, and return the value. -/
def visible_input (prompt : Option String) (st : PromptState) :
    List Char × PromptState :=
  let out1 := st.outputText ++ (prompt.getD "").toList
  let step := textReadline st.inputText
  let val := rstripCRLF step.1
  (val, { inputText := step.2, outputText := out1 ++ val ++ ['\n'] })

/-! ## `CliRunner.make_env` -/

/-- A Python `dict` with insertion order: an association list with unique
keys (assignment to an existing key replaces in place, otherwise appends).
Values are `Option String` since an override value may be `None`. -/
abbrev PyDict := List (String × Option String)

/-- `d[k]` lookup (first match; keys are unique in a well-formed dict). -/
def dictGet : PyDict → String → Option (Option String)
  | [], _ => none
  | (k0, v0) :: rest, k => if k = k0 then some v0 else dictGet rest k

/-- `d[k] = v`: replace in place if present, else append. -/
def dictSet : PyDict → String → Option String → PyDict
  | [], k, v => [(k, v)]
  | (k0, v0) :: rest, k, v =>
    if k = k0 then (k0, v) :: rest else (k0, v0) :: dictSet rest k v

/-- `d.update(m)`: assign every entry of `m` into `d`, in order. -/
def dictUpdate (d m : PyDict) : PyDict :=
  m.foldl (fun acc kv => dictSet acc kv.1 kv.2) d

/-- `CliRunner.make_env(overrides)`: copy `self.env`, then update it with
the overrides when they are truthy (a `None` or empty mapping is falsy). -/
def make_env (selfEnv : PyDict) (overrides : Option PyDict) : PyDict :=
  let rv := selfEnv
  match overrides with
  | none => rv
  | some m => if m.isEmpty then rv else dictUpdate rv m

/-! ## `CliRunner.isolated_filesystem` -/

/-- The filesystem state the workspace scope touches: the current working
directory and the set of existing directories. -/
structure FsState where
  cwd : String
  dirs : List String
  deriving DecidableEq, Repr

/-- `CliRunner.isolated_filesystem(temp_dir)`: record the cwd, create the
fresh directory `t` (`tempfile.mkdtemp(dir=temp_dir)`) and `chdir` into
it, run the body, then — in `finally` — `chdir` back first and, only when
`temp_dir` is `None`, `shutil.rmtree(t)` with any `OSError` swallowed
(`rmtreeFails` says whether that deletion raises). -/
def isolated_filesystem (temp_dir : Option String) (t : String)
    (body : FsState → FsState × Except PyError α) (rmtreeFails : Bool)
    (fs : FsState) : FsState × Except PyError α :=
  let cwd := fs.cwd
  let entered : FsState := { cwd := t, dirs := fs.dirs ++ [t] }
  let step := body entered
  let restored : FsState := { step.1 with cwd := cwd }
  let cleaned : FsState :=
    if temp_dir = none then
      if rmtreeFails then restored
      else { restored with dirs := restored.dirs.erase t }
    else restored
  (cleaned, step.2)

/-! ## Helper lemmas -/

/-- Each single read operation appends exactly the returned bytes to the
sink. -/
lemma echoStep_output (s : EchoingStdin) (op : ReadOp) :
    (echoStep s op).2._output = s._output ++ (echoStep s op).1 := by
  cases op <;> rfl

lemma isolationRestoreEnv_nil (b : Env) : isolationRestoreEnv [] b = b := rfl

lemma isolationRestoreEnv_cons (kv : String × Option String)
    (old : List (String × Option String)) (b : Env) :
    isolationRestoreEnv (kv :: old) b =
      isolationRestoreEnv old (envUpdate b kv.1 kv.2) := rfl

/-- The snapshot list records exactly the overridden keys, in order. -/
lemma isolationApplyEnv_keys (e : Env) (M : List (String × Option String)) :
    ((isolationApplyEnv e M).2).map Prod.fst = M.map Prod.fst := by
  induction M generalizing e with
  | nil => rfl
  | cons kv rest ih => simpa [isolationApplyEnv] using ih (envUpdate e kv.1 kv.2)

/-- Restoring from a snapshot that does not mention `k` leaves `k`
untouched. -/
lemma isolationRestoreEnv_not_mem (old : List (String × Option String))
    (b : Env) (k : String) (h : k ∉ old.map Prod.fst) :
    isolationRestoreEnv old b k = b k := by
  induction old generalizing b with
  | nil => rfl
  | cons kv t ih =>
    simp only [List.map_cons, List.mem_cons, not_or] at h
    rw [isolationRestoreEnv_cons, ih _ h.2, envUpdate, if_neg h.1]

/-- `isolationRestoreEnv old b k` depends on the base environment `b` only
through `b k`. -/
lemma isolationRestoreEnv_point (old : List (String × Option String))
    (b b' : Env) (k : String) (h : b k = b' k) :
    isolationRestoreEnv old b k = isolationRestoreEnv old b' k := by
  induction old generalizing b b' with
  | nil => exact h
  | cons kv t ih =>
    rw [isolationRestoreEnv_cons, isolationRestoreEnv_cons]
    refine ih _ _ ?_
    simp only [envUpdate]
    split
    · rfl
    · exact h

/-- Applying an override mapping with distinct keys and then restoring
from its snapshot is the identity on the environment. -/
lemma isolation_env_roundtrip (M : List (String × Option String)) (e : Env)
    (h : (M.map Prod.fst).Nodup) (k : String) :
    isolationRestoreEnv (isolationApplyEnv e M).2 (isolationApplyEnv e M).1 k = e k := by
  induction M generalizing e with
  | nil => rfl
  | cons kv rest ih =>
    obtain ⟨k0, v0⟩ := kv
    simp only [List.map_cons, List.nodup_cons] at h
    simp only [isolationApplyEnv, isolationRestoreEnv_cons]
    by_cases hk : k = k0
    · subst hk
      rw [isolationRestoreEnv_not_mem]
      · simp [envUpdate]
      · rw [isolationApplyEnv_keys]
        exact h.1
    · rw [isolationRestoreEnv_point _ _ (isolationApplyEnv (envUpdate e k0 v0) rest).1
        k (by simp [envUpdate, hk])]
      rw [ih (envUpdate e k0 v0) h.2]
      simp [envUpdate, hk]

/-! ## Claims -/

/-- C3: every byte sequence returned to the caller by a read operation of
`EchoingStdin` (`read`, `readline`, `readlines`, iteration) is appended
unchanged to the output sink by that operation, and hence over any
sequence of read operations the captured output is extended by exactly
the bytes delivered to the caller, in order. -/
theorem echoing_stdin_echoes_reads :
    (∀ (s : EchoingStdin) (op : ReadOp),
      (echoStep s op).2._output = s._output ++ (echoStep s op).1) ∧
    (∀ (s : EchoingStdin) (ops : List ReadOp),
      (echoRun s ops).2._output = s._output ++ (echoRun s ops).1) := by
  refine ⟨echoStep_output, ?_⟩
  intro s ops
  induction ops generalizing s with
  | nil => simp [echoRun]
  | cons op ops ih =>
    simp only [echoRun]
    rw [ih, echoStep_output, List.append_assoc]

/-- C5: accessing `Result.stderr` when stderr was merged into stdout
(`stderr_bytes` is the "not separately captured" sentinel) raises a
`ValueError` rather than returning empty text; with separately captured
bytes it returns the decoded text without error. -/
theorem result_stderr_spec (α : Type) (r : Result α) (bs : List Nat) :
    Result.stderr { r with stderr_bytes := none } =
      .error (.valueError "stderr not separately captured") ∧
    ∃ s, decodeBytes .replace bs = .ok s ∧
      Result.stderr { r with stderr_bytes := some bs } = .ok (crlfToLf s) := by
  exact ⟨rfl, _, rfl, rfl⟩

/-- C6: the text views `output`, `stdout` and `stderr` of a `Result` are
the byte fields decoded with the configured charset under the `replace`
error policy with CRLF normalized to LF, and the `replace` decoding
succeeds on every byte sequence. -/
theorem result_text_views_spec (α : Type) (r : Result α) (bs : List Nat) :
    (∃ s, decodeBytes .replace r.stdout_bytes = .ok s ∧
      Result.stdout r = .ok (crlfToLf s) ∧ Result.output r = .ok (crlfToLf s)) ∧
    (∃ s, decodeBytes .replace bs = .ok s ∧
      Result.stderr { r with stderr_bytes := some bs } = .ok (crlfToLf s)) ∧
    (∀ cs : List Nat, ∃ s, decodeBytes .replace cs = .ok s) := by
  exact ⟨⟨_, rfl, rfl, rfl⟩, ⟨_, rfl, rfl⟩, fun cs => ⟨_, rfl⟩⟩

/-- C7: the `visible_input` hook writes the prompt (or nothing), reads one
line from simulated input stripped of trailing CR/LF, echoes the stripped
value plus a newline, and returns it; in particular prompting "Name: "
with input "Ada\n" yields output "Name: Ada\n" and return value "Ada". -/
theorem visible_input_spec :
    (∀ (p : Option String) (st : PromptState),
      (visible_input p st).1 = rstripCRLF (textReadline st.inputText).1 ∧
      ((visible_input p st).2).outputText =
        st.outputText ++ (p.getD "").toList ++ (visible_input p st).1 ++ ['\n'] ∧
      ((visible_input p st).2).inputText = (textReadline st.inputText).2) ∧
    visible_input (some "Name: ") ⟨"Ada\n".toList, []⟩ =
      ("Ada".toList, ⟨[], "Name: Ada\n".toList⟩) := by
  constructor
  · intro p st
    refine ⟨rfl, ?_, rfl⟩
    simp [visible_input, List.append_assoc]
  · decide

/-- C8: `make_input_stream` fails with a `TypeError` on a readable stream
with no derivable binary reader, and yields a byte stream over the empty
sequence for an absent payload, over the charset-encoded text for a text
payload, and over exactly the given bytes for a bytes payload. -/
theorem make_input_stream_spec (rv : ByteBuf) (s : String) (bs : List Nat) :
    make_input_stream (.streamInput none) =
      .error (.typeError "Could not find binary reader for input stream.") ∧
    make_input_stream (.streamInput (some rv)) = .ok rv ∧
    make_input_stream .noneInput = .ok ⟨[], 0⟩ ∧
    make_input_stream (.textInput s) = .ok ⟨strBytes s, 0⟩ ∧
    make_input_stream (.bytesInput bs) = .ok ⟨bs, 0⟩ :=
  ⟨rfl, rfl, rfl, rfl, rfl⟩

/-- C9: on every exit path of `isolated_filesystem`, the body's outcome
(normal value or exception) is returned unchanged — cleanup failures never
mask it; the working directory is restored to its pre-entry value
regardless of the cleanup's fate; and the created directory is deleted
exactly when no parent-directory override was supplied and the deletion
does not fail (a failing deletion is swallowed, leaving the directory).
The final conjunct is the spec's scenario: no parent override, body
completes normally, the directory is gone and the cwd is the pre-block
value. -/
theorem isolated_filesystem_spec (α : Type) (temp_dir : Option String)
    (t : String) (body : FsState → FsState × Except PyError α)
    (rmtreeFails : Bool) (fs : FsState) :
    (isolated_filesystem temp_dir t body rmtreeFails fs).2 =
      (body { cwd := t, dirs := fs.dirs ++ [t] }).2 ∧
    (isolated_filesystem temp_dir t body rmtreeFails fs).1.cwd = fs.cwd ∧
    (isolated_filesystem temp_dir t body rmtreeFails fs).1.dirs =
      (if temp_dir = none ∧ rmtreeFails = false then
        ((body { cwd := t, dirs := fs.dirs ++ [t] }).1.dirs).erase t
      else (body { cwd := t, dirs := fs.dirs ++ [t] }).1.dirs) ∧
    isolated_filesystem none "/tmp/d" (fun f => (f, Except.ok ())) false
        ⟨"/home", []⟩ = (⟨"/home", []⟩, Except.ok ()) := by
  refine ⟨rfl, ?_, ?_, by rfl⟩
  · simp only [isolated_filesystem]
    rcases temp_dir with _ | d
    · cases rmtreeFails <;> rfl
    · rfl
  · simp only [isolated_filesystem]
    rcases temp_dir with _ | d
    · cases rmtreeFails <;> simp
    · simp

/-- C4: when the entry point raises a non-`SystemExit` exception, `invoke`
propagates it (producing no `Result`) if exception-catching is disabled;
with catching enabled it records the exception and its context in the
`Result` and sets exit code 1, writing nothing extra to stdout. -/
theorem invoke_uncaught_exception_spec (α : Type) (tag : String)
    (mix_stderr : Bool) (outBuf errBuf : List Nat) :
    invoke (α := α) (.raiseErr tag) false mix_stderr outBuf errBuf = none ∧
    invoke (α := α) (.raiseErr tag) true mix_stderr outBuf errBuf = some
      { stdout_bytes := outBuf
        stderr_bytes := if mix_stderr then none else some errBuf
        return_value := none
        exit_code := 1
        exception := some (.otherExc tag)
        exc_info := some (.otherExc tag) } := by
  refine ⟨rfl, ?_⟩
  have hc : classifyOutcome (α := α) (.raiseErr tag) true =
      some (none, 1, some (.otherExc tag), some (.otherExc tag), "") := rfl
  have h0 : strBytes "" = [] := rfl
  simp [invoke, hc, h0]

/-- C1 counterexample: the claim says the exit signal is recorded as the
`Result`'s exception exactly when the final numeric exit code is
non-zero.  For `SystemExit(0.0)` — a non-integer payload whose `!= 0`
comparison is false, rendered by `str` as "0.0" — the code normalizes the
exit code to 1 (non-zero) yet records no exception, because the
`exit_code != 0` test runs before the non-integer normalization. -/
theorem invoke_exit_counterexample :
    invoke (α := Unit) (.sysExit (.otherCode "0.0" true)) true true [] [] =
      some { stdout_bytes := strBytes "0.0\n"
             stderr_bytes := none
             return_value := none
             exit_code := 1
             exception := none
             exc_info := some (.sysExit (.otherCode "0.0" true)) } ∧
    (1 : Int) ≠ 0 := by
  exact ⟨rfl, by decide⟩

/-- C1 (amended): a normal return yields that return value, exit code 0
and no exception; a `SystemExit` with integer payload `n` yields exit
code `n`; payload `None` yields exit code 0 and no exception; a
non-integer payload yields its `str` rendering plus a newline appended to
captured output and exit code 1.  The exit signal is recorded as the
exception exactly when the payload — after normalizing `None` to 0 but
before the non-integer normalization to 1 — compares unequal to 0; in
particular a non-integer payload comparing equal to 0 gives final exit
code 1 with no recorded exception. -/
theorem invoke_classification_spec (α : Type) (v : α) (n : Int) (s : String)
    (eqZero catchExc mix_stderr : Bool) (outBuf errBuf : List Nat) :
    invoke (.ret v) catchExc mix_stderr outBuf errBuf = some
      { stdout_bytes := outBuf
        stderr_bytes := if mix_stderr then none else some errBuf
        return_value := some v
        exit_code := 0
        exception := none
        exc_info := none } ∧
    invoke (α := α) (.sysExit (.intCode n)) catchExc mix_stderr outBuf errBuf = some
      { stdout_bytes := outBuf
        stderr_bytes := if mix_stderr then none else some errBuf
        return_value := none
        exit_code := n
        exception := if n = 0 then none else some (.sysExit (.intCode n))
        exc_info := some (.sysExit (.intCode n)) } ∧
    invoke (α := α) (.sysExit .noneCode) catchExc mix_stderr outBuf errBuf = some
      { stdout_bytes := outBuf
        stderr_bytes := if mix_stderr then none else some errBuf
        return_value := none
        exit_code := 0
        exception := none
        exc_info := some (.sysExit .noneCode) } ∧
    invoke (α := α) (.sysExit (.otherCode s eqZero)) catchExc mix_stderr outBuf errBuf = some
      { stdout_bytes := outBuf ++ strBytes (s ++ "\n")
        stderr_bytes := if mix_stderr then none else some errBuf
        return_value := none
        exit_code := 1
        exception := if eqZero then none else some (.sysExit (.otherCode s eqZero))
        exc_info := some (.sysExit (.otherCode s eqZero)) } := by
  have h0 : strBytes "" = [] := rfl
  refine ⟨?_, ?_, ?_, ?_⟩
  · have hc : classifyOutcome (α := α) (.ret v) catchExc =
        some (some v, 0, none, none, "") := rfl
    simp [invoke, hc, h0]
  · have hc : classifyOutcome (α := α) (.sysExit (.intCode n)) catchExc =
        some (none, n,
          if pyExitNeZero (.intCode n) then some (.sysExit (.intCode n)) else none,
          some (.sysExit (.intCode n)), "") := rfl
    by_cases h : n = 0
    · subst h
      simp [invoke, hc, h0, pyExitNeZero]
    · simp [invoke, hc, h0, pyExitNeZero, h]
  · have hc : classifyOutcome (α := α) (.sysExit .noneCode) catchExc =
        some (none, 0, none, some (.sysExit .noneCode), "") := rfl
    simp [invoke, hc, h0]
  · cases eqZero
    · have hc : classifyOutcome (α := α) (.sysExit (.otherCode s false)) catchExc =
          some (none, 1, some (.sysExit (.otherCode s false)),
            some (.sysExit (.otherCode s false)), s ++ "\n") := rfl
      simp [invoke, hc]
    · have hc : classifyOutcome (α := α) (.sysExit (.otherCode s true)) catchExc =
          some (none, 1, none, some (.sysExit (.otherCode s true)), s ++ "\n") := rfl
      simp [invoke, hc]

/-- C2: an isolation session applies environment overrides (value `none`
deletes the variable) after snapshotting each overridden key, and on every
exit path — the body's outcome, normal or exceptional, passes through the
`finally` block unchanged — the restore loop brings the ambient
environment back to exactly its pre-entry state: overridden keys regain
their snapshotted values and previously absent keys are absent again.
The override mapping is a Python `dict`, so its keys are distinct. -/
theorem isolation_env_restore_spec (α : Type) (e : Env)
    (M : List (String × Option String)) (body : Except PyError α)
    (h : (M.map Prod.fst).Nodup) :
    (isolationSession e M body).1 = body ∧
    ∀ k, (isolationSession e M body).2 k = e k :=
  ⟨rfl, fun k => isolation_env_roundtrip M e h k⟩

/-- Witness for C2: a concrete override mapping with distinct keys, one
set and one deleted, over a two-variable ambient environment. -/
theorem isolation_env_restore_spec_witness :
    (([("PATH", some "/x"), ("HOME", none)].map
      (Prod.fst (α := String) (β := Option String))).Nodup) ∧
    (isolationSession (fun k => if k = "HOME" then some "/h" else none)
        [("PATH", some "/x"), ("HOME", none)]
        (Except.ok (0 : Nat))).2 "HOME" =
      (fun k => if k = "HOME" then some "/h" else none) "HOME" :=
  ⟨by decide,
    (isolation_env_restore_spec Nat (fun k => if k = "HOME" then some "/h" else none)
      [("PATH", some "/x"), ("HOME", none)] (Except.ok 0) (by decide)).2 "HOME"⟩

lemma dictGet_dictSet_self (d : PyDict) (k : String) (v : Option String) :
    dictGet (dictSet d k v) k = some v := by
  induction d with
  | nil => simp [dictSet, dictGet]
  | cons kv rest ih =>
    obtain ⟨k0, v0⟩ := kv
    by_cases hk : k = k0 <;> simp [dictSet, dictGet, hk, ih]

lemma dictGet_dictSet_other (d : PyDict) (j k : String) (v : Option String)
    (h : j ≠ k) : dictGet (dictSet d k v) j = dictGet d j := by
  induction d with
  | nil => simp [dictSet, dictGet, h]
  | cons kv rest ih =>
    obtain ⟨k0, v0⟩ := kv
    by_cases hk : k = k0
    · subst hk
      simp [dictSet, dictGet, h]
    · by_cases hj : j = k0 <;> simp [dictSet, dictGet, hk, hj, ih]

lemma dictGet_eq_none_of_not_mem (m : PyDict) (k : String)
    (h : k ∉ m.map Prod.fst) : dictGet m k = none := by
  induction m with
  | nil => rfl
  | cons kv rest ih =>
    simp only [List.map_cons, List.mem_cons, not_or] at h
    simp [dictGet, h.1, ih h.2]

/-- Looking up a key after `d.update(m)` (for a well-formed `m`, i.e. with
distinct keys) gives `m`'s value when the key is in `m`, else `d`'s. -/
lemma dictGet_dictUpdate (d m : PyDict) (h : (m.map Prod.fst).Nodup)
    (k : String) :
    dictGet (dictUpdate d m) k =
      match dictGet m k with
      | some v => some v
      | none => dictGet d k := by
  induction m generalizing d with
  | nil => rfl
  | cons kv rest ih =>
    obtain ⟨k0, v0⟩ := kv
    simp only [List.map_cons, List.nodup_cons] at h
    show dictGet (dictUpdate (dictSet d k0 v0) rest) k = _
    rw [ih _ h.2]
    by_cases hk : k = k0
    · subst hk
      rw [dictGet_eq_none_of_not_mem rest k h.1]
      simp [dictGet, dictGet_dictSet_self]
    · simp only [dictGet, if_neg hk]
      cases dictGet rest k <;> simp [dictGet_dictSet_other _ _ _ _ hk]

/-- C10: `make_env` computes the key-wise union of the runner's stored
environment mapping and the per-invocation overrides, with the override
value winning for every key present in both; the stored mapping itself is
only copied, never written to (in the embedding `make_env` is a pure
function of it).  Overrides form a Python `dict`, so their keys are
distinct. -/
theorem make_env_spec (selfEnv m : PyDict) (h : (m.map Prod.fst).Nodup) :
    make_env selfEnv none = selfEnv ∧
    ∀ k, dictGet (make_env selfEnv (some m)) k =
      match dictGet m k with
      | some v => some v
      | none => dictGet selfEnv k := by
  refine ⟨rfl, fun k => ?_⟩
  cases m with
  | nil => rfl
  | cons kv rest =>
    show dictGet (dictUpdate selfEnv (kv :: rest)) k = _
    exact dictGet_dictUpdate selfEnv (kv :: rest) h k

/-- Witness for C10: concrete runner mapping and overrides sharing the key
"B"; the override's value wins there. -/
theorem make_env_spec_witness :
    (([("B", some "9"), ("C", none)].map
      (Prod.fst (α := String) (β := Option String))).Nodup) ∧
    dictGet (make_env [("A", some "1"), ("B", some "2")]
        (some [("B", some "9"), ("C", none)])) "B" =
      match dictGet [("B", some "9"), ("C", none)] "B" with
      | some v => some v
      | none => dictGet [("A", some "1"), ("B", some "2")] "B" :=
  ⟨by decide,
    (make_env_spec [("A", some "1"), ("B", some "2")]
      [("B", some "9"), ("C", none)] (by decide)).2 "B"⟩

end ClickTesting
